import Mathlib

/-!
# Verification of `dependency-check`

A shallow embedding of `src/dependency-check.ts`, a one-shot linter that
classifies a package manifest's declared dependencies as internal or external
and applies policy rules keyed on a configured package type.

JavaScript strings are modelled as Lean `String`; the string primitives used
by the source (`startsWith`, `toLowerCase`, `includes`) are embedded over
`String.data`.  A parsed manifest's dependency maps are modelled as
association lists `List (String × String)` in declaration (insertion) order,
matching `Object.entries` on a JSON-parsed object.  The outcome of
`fs.readFileSync` + `JSON.parse` is modelled as `Except String Manifest`:
`.error e` is a thrown exception carrying the message `e`.
-/

namespace DependencyCheck

/-- Embedding of JS `String.prototype.startsWith`. -/
def jsStartsWith (s searchString : String) : Bool :=
  searchString.data.isPrefixOf s.data

/-- Embedding of JS `String.prototype.toLowerCase` (ASCII case folding). -/
def jsToLower (s : String) : String :=
  ⟨s.data.map Char.toLower⟩

/-- Embedding of JS `String.prototype.includes`: substring containment. -/
def jsIncludes (s target : String) : Bool :=
  decide (target.data <:+: s.data)

/-- `INTERNAL_PACKAGE_LIST` from `dependency-check.ts` (lines 7-12): the fixed
built-in list of internal package names. -/
def INTERNAL_PACKAGE_LIST : List String :=
  ["schematic-symbols"]

/-- `CheckOptions` from `dependency-check.ts` (lines 14-19).  The source
narrows `package_type` to `"internal_lib" | "bundled_lib"` at the type level
only; at runtime any string can flow in through the `as` cast in `main`, so it
is modelled as `String`. -/
structure CheckOptions where
  package_type : String
  peer_deps_should_be_asterisk : Bool
  additional_internal_modules : List String := []
  ignore_packages : List String := []
deriving DecidableEq

/-- `defaultOptions` from `dependency-check.ts` (lines 22-27). -/
def defaultOptions : CheckOptions :=
  { package_type := "internal_lib"
    peer_deps_should_be_asterisk := true
    additional_internal_modules := []
    ignore_packages := [] }

/-- `isInternalModule` from `dependency-check.ts` (lines 32-57). -/
def isInternalModule (packageName : String)
    (additionalModules : List String := []) : Bool :=
  if INTERNAL_PACKAGE_LIST.contains packageName then true
  else if jsStartsWith packageName "@tscircuit/" then true
  else if jsIncludes (jsToLower packageName) "circuit" then true
  else if additionalModules.contains packageName then true
  else false

/-- A parsed manifest: the three dependency maps destructured from
`package.json` (lines 74-78), each an association list in declaration
order.  Absent sub-mappings default to empty, as in the source. -/
structure Manifest where
  dependencies : List (String × String) := []
  peerDependencies : List (String × String) := []
  devDependencies : List (String × String) := []
deriving DecidableEq

/-- The result record `{ success: boolean; errors: string[] }` returned by
`checkDependencies`. -/
structure Result where
  success : Bool
  errors : List String
deriving DecidableEq

/-- Embedding of the mutation `result.success = false; result.errors.push(msg)`
performed at each violation. -/
def pushError (r : Result) (msg : String) : Result :=
  { success := false, errors := r.errors ++ [msg] }

/-- The message template pushed at line 90 of the source. -/
def internalDepMsg (dep : String) : String :=
  "Internal module \"" ++ dep ++ "\" found in dependencies. It should be in peerDependencies or devDependencies."

/-- The message template pushed at line 105 of the source. -/
def peerAsteriskMsg (dep : String) : String :=
  "Internal module \"" ++ dep ++ "\" in peerDependencies should use \"*\" as version."

/-- The message template pushed at line 119 of the source. -/
def bundledDepMsg (dep : String) : String :=
  "Internal module \"" ++ dep ++ "\" found in dependencies. Bundled libs cannot have internal dependencies."

/-- The message template pushed at line 131 of the source. -/
def bundledPeerMsg (dep : String) : String :=
  "Internal module \"" ++ dep ++ "\" found in peerDependencies. Bundled libs cannot have internal peer dependencies."

/-- The message pushed in the `catch` block at lines 137-140 of the source. -/
def parseErrorMsg (e : String) : String :=
  "Error reading or parsing package.json: " ++ e

/-- The shared shape of the four `for (const [dep, version] of
Object.entries(...))` loops in `checkDependencies`: walk the entries in
declaration order and push `msg dep` whenever `cond dep version` holds. -/
def checkLoop (cond : String → String → Bool) (msg : String → String)
    (entries : List (String × String)) (r : Result) : Result :=
  entries.foldl (fun acc dv => if cond dv.1 dv.2 then pushError acc (msg dv.1) else acc) r

/-- `checkDependencies` from `dependency-check.ts` (lines 62-144).  The
`packageJson` argument is the outcome of reading and parsing the manifest
file; `.error e` models a thrown read/parse exception, which the source
catches after having done nothing but initialise `result`. -/
def checkDependencies (packageJson : Except String Manifest)
    (options : CheckOptions := defaultOptions) : Result :=
  let result : Result := { success := true, errors := [] }
  match packageJson with
  | .error e => pushError result (parseErrorMsg e)
  | .ok pj =>
    if options.package_type == "internal_lib" then
      let r1 := checkLoop
        (fun dep _ => isInternalModule dep options.additional_internal_modules
          && !(options.ignore_packages.contains dep))
        internalDepMsg pj.dependencies result
      if options.peer_deps_should_be_asterisk then
        checkLoop
          (fun dep version => isInternalModule dep options.additional_internal_modules
            && version != "*" && !(options.ignore_packages.contains dep))
          peerAsteriskMsg pj.peerDependencies r1
      else r1
    else if options.package_type == "bundled_lib" then
      let r1 := checkLoop
        (fun dep _ => isInternalModule dep options.additional_internal_modules
          && !(options.ignore_packages.contains dep))
        bundledDepMsg pj.dependencies result
      checkLoop
        (fun dep _ => isInternalModule dep options.additional_internal_modules
          && !(options.ignore_packages.contains dep))
        bundledPeerMsg pj.peerDependencies r1
    else result

/-- The derivation of `peerDepsAsterisk` in `main` (lines 152-154):
`process.env.INPUT_PEER_DEPS_SHOULD_BE_ASTERISK === "true" ||
defaultOptions.peer_deps_should_be_asterisk`.  The argument is the value of
the environment variable (`none` when unset). -/
def peerDepsAsterisk (envValue : Option String) : Bool :=
  (envValue == some "true") || defaultOptions.peer_deps_should_be_asterisk

/-- The parsing rule as the spec states it for
`INPUT_PEER_DEPS_SHOULD_BE_ASTERISK`: the flag is true iff the environment
string equals `"true"` exactly (false for every other value, unset
included). -/
def specPeerDepsFlag (envValue : Option String) : Bool :=
  envValue == some "true"

/-- `isInternalModule` with classifier rule 2 (the `@tscircuit/` prefix test
at lines 42-44) removed, all other rules unchanged: the comparison target for
the claim that rule 2 is subsumed by rule 3. -/
def isInternalModuleNoPrefixRule (packageName : String)
    (additionalModules : List String := []) : Bool :=
  if INTERNAL_PACKAGE_LIST.contains packageName then true
  else if jsIncludes (jsToLower packageName) "circuit" then true
  else if additionalModules.contains packageName then true
  else false

/-- The violation list the spec describes, written directly as filter/map in
declaration order: under `internal_lib`, all dependencies-map violations in
manifest order, then (when the asterisk rule is on) all peerDependencies-map
violations in manifest order; under `bundled_lib`, dependencies-map violations
then peerDependencies-map violations; empty for any other package type. -/
def specOrderedErrors (pj : Manifest) (options : CheckOptions) : List String :=
  if options.package_type == "internal_lib" then
    ((pj.dependencies.filter fun dv =>
        isInternalModule dv.1 options.additional_internal_modules
          && !(options.ignore_packages.contains dv.1)).map fun dv => internalDepMsg dv.1)
    ++ (if options.peer_deps_should_be_asterisk then
          (pj.peerDependencies.filter fun dv =>
              isInternalModule dv.1 options.additional_internal_modules
                && dv.2 != "*" && !(options.ignore_packages.contains dv.1)).map
            fun dv => peerAsteriskMsg dv.1
        else [])
  else if options.package_type == "bundled_lib" then
    ((pj.dependencies.filter fun dv =>
        isInternalModule dv.1 options.additional_internal_modules
          && !(options.ignore_packages.contains dv.1)).map fun dv => bundledDepMsg dv.1)
    ++ ((pj.peerDependencies.filter fun dv =>
        isInternalModule dv.1 options.additional_internal_modules
          && !(options.ignore_packages.contains dv.1)).map fun dv => bundledPeerMsg dv.1)
  else []

/-- The configuration of spec scenario F: the `internal_lib` defaults with
`ignore_packages = ["@tscircuit/core"]`. -/
def scenarioFOptions : CheckOptions :=
  { package_type := "internal_lib"
    peer_deps_should_be_asterisk := true
    additional_internal_modules := []
    ignore_packages := ["@tscircuit/core"] }

/-- The manifest of spec scenario F. -/
def scenarioFManifest : Manifest :=
  { dependencies := [("@tscircuit/core", "1.0.0")] }

/-- The manifest of spec scenario B (violating variant). -/
def scenarioBManifest : Manifest :=
  { peerDependencies := [("@tscircuit/core", "^1.0.0")] }

/-- Unfolding one step of a check loop. -/
theorem checkLoop_cons (cond : String → String → Bool) (msg : String → String)
    (hd : String × String) (tl : List (String × String)) (r : Result) :
    checkLoop cond msg (hd :: tl) r
      = checkLoop cond msg tl (if cond hd.1 hd.2 then pushError r (msg hd.1) else r) := by
  unfold checkLoop
  by_cases h : cond hd.1 hd.2 <;> simp [h]

/-- Closed form of a check loop: it appends, to the errors accumulated so far,
the message of every entry passing the condition, in entry order, and clears
the success flag exactly when some entry passes. -/
theorem checkLoop_eq (cond : String → String → Bool) (msg : String → String)
    (entries : List (String × String)) (r : Result) :
    checkLoop cond msg entries r
      = { success := r.success && (entries.filter fun dv => cond dv.1 dv.2).isEmpty,
          errors := r.errors ++ ((entries.filter fun dv => cond dv.1 dv.2).map fun dv => msg dv.1) } := by
  induction entries generalizing r with
  | nil => simp [checkLoop]
  | cons hd tl ih =>
    rw [checkLoop_cons]
    by_cases h : cond hd.1 hd.2
    · rw [if_pos h, ih]
      simp [pushError, List.filter_cons, h]
    · rw [if_neg h, ih]
      simp [List.filter_cons, h]

/-- The error list produced on a successfully parsed manifest is exactly the
spec's ordered violation list. -/
theorem checkDependencies_ok_errors (pj : Manifest) (options : CheckOptions) :
    (checkDependencies (.ok pj) options).errors = specOrderedErrors pj options := by
  unfold checkDependencies specOrderedErrors
  by_cases h1 : (options.package_type == "internal_lib") = true
  · by_cases h2 : options.peer_deps_should_be_asterisk = true
    · simp only [h1, h2, if_true, checkLoop_eq, List.nil_append]
    · simp only [h1, if_true, eq_false_of_ne_true h2, if_false, checkLoop_eq,
        Bool.false_eq_true, List.append_nil, List.nil_append]
  · by_cases h3 : (options.package_type == "bundled_lib") = true
    · simp only [eq_false_of_ne_true h1, h3, if_true, if_false, checkLoop_eq,
        Bool.false_eq_true, List.nil_append, List.append_assoc]
    · simp only [eq_false_of_ne_true h1, eq_false_of_ne_true h3, if_false,
        Bool.false_eq_true]

/-- The success flag on a successfully parsed manifest equals emptiness of the
produced error list. -/
theorem checkDependencies_ok_success (pj : Manifest) (options : CheckOptions) :
    (checkDependencies (.ok pj) options).success
      = (checkDependencies (.ok pj) options).errors.isEmpty := by
  unfold checkDependencies
  by_cases h1 : (options.package_type == "internal_lib") = true
  · by_cases h2 : options.peer_deps_should_be_asterisk = true
    · simp only [h1, h2, if_true, checkLoop_eq]
      cases hf1 : (pj.dependencies.filter fun dv =>
          isInternalModule dv.1 options.additional_internal_modules
            && !(options.ignore_packages.contains dv.1)) <;>
        cases hf2 : (pj.peerDependencies.filter fun dv =>
            isInternalModule dv.1 options.additional_internal_modules
              && dv.2 != "*" && !(options.ignore_packages.contains dv.1)) <;>
          simp [hf1, hf2, List.isEmpty_iff]
    · simp only [h1, if_true, eq_false_of_ne_true h2, if_false, checkLoop_eq,
        Bool.false_eq_true]
      cases hf1 : (pj.dependencies.filter fun dv =>
          isInternalModule dv.1 options.additional_internal_modules
            && !(options.ignore_packages.contains dv.1)) <;>
        simp [hf1, List.isEmpty_iff]
  · by_cases h3 : (options.package_type == "bundled_lib") = true
    · simp only [eq_false_of_ne_true h1, h3, if_true, if_false, checkLoop_eq,
        Bool.false_eq_true]
      cases hf1 : (pj.dependencies.filter fun dv =>
          isInternalModule dv.1 options.additional_internal_modules
            && !(options.ignore_packages.contains dv.1)) <;>
        cases hf2 : (pj.peerDependencies.filter fun dv =>
            isInternalModule dv.1 options.additional_internal_modules
              && !(options.ignore_packages.contains dv.1)) <;>
          simp [hf1, hf2, List.isEmpty_iff]
    · simp only [eq_false_of_ne_true h1, eq_false_of_ne_true h3, if_false,
        Bool.false_eq_true]
      rfl

/-- Two lists whose characters differ at some common position from the right
end stay unequal whatever is prepended to them. -/
theorem append_ne_of_rev_getElem (s t x y : List Char) (i : Nat) (a b : Char)
    (hsa : s.reverse[i]? = some a) (htb : t.reverse[i]? = some b) (hab : a ≠ b) :
    x ++ s ≠ y ++ t := by
  intro h
  have hrev : s.reverse ++ x.reverse = t.reverse ++ y.reverse := by
    have hr := congrArg List.reverse h
    simpa only [List.reverse_append] using hr
  have hi : i < s.reverse.length := by
    by_contra hc
    rw [List.getElem?_eq_none (by omega)] at hsa
    exact Option.noConfusion hsa
  have hj : i < t.reverse.length := by
    by_contra hc
    rw [List.getElem?_eq_none (by omega)] at htb
    exact Option.noConfusion htb
  have hsome : (some a : Option Char) = some b := by
    calc (some a : Option Char) = s.reverse[i]? := hsa.symm
      _ = (s.reverse ++ x.reverse)[i]? := (List.getElem?_append_left hi).symm
      _ = (t.reverse ++ y.reverse)[i]? := by rw [hrev]
      _ = t.reverse[i]? := List.getElem?_append_left hj
      _ = some b := htb
  exact hab (Option.some.inj hsome)

/-- Two sandwich strings whose fixed suffixes differ at some position from the
right are never equal, whatever the embedded middles. -/
theorem sandwich_ne (p1 s1 p2 s2 : String) (i : Nat) (a b : Char)
    (h1 : s1.data.reverse[i]? = some a) (h2 : s2.data.reverse[i]? = some b)
    (hab : a ≠ b) (x y : String) : p1 ++ x ++ s1 ≠ p2 ++ y ++ s2 := by
  intro h
  have hd : (p1.data ++ x.data) ++ s1.data = (p2.data ++ y.data) ++ s2.data := by
    have hq := congrArg String.data h
    simpa only [String.data_append] using hq
  exact append_ne_of_rev_getElem s1.data s2.data _ _ i a b h1 h2 hab hd

/-- A sandwich string determines its middle. -/
theorem sandwich_inj (p s : String) {x y : String} (h : p ++ x ++ s = p ++ y ++ s) :
    x = y := by
  have hd : (p.data ++ x.data) ++ s.data = (p.data ++ y.data) ++ s.data := by
    have hq := congrArg String.data h
    simpa only [String.data_append] using hq
  exact String.ext (List.append_cancel_left (List.append_cancel_right hd))

/-- The `internal_lib` dependencies-rule message determines the package name. -/
theorem internalDepMsg_inj {x y : String} (h : internalDepMsg x = internalDepMsg y) :
    x = y := by
  unfold internalDepMsg at h
  exact sandwich_inj _ _ h

/-- The asterisk-rule message determines the package name. -/
theorem peerAsteriskMsg_inj {x y : String} (h : peerAsteriskMsg x = peerAsteriskMsg y) :
    x = y := by
  unfold peerAsteriskMsg at h
  exact sandwich_inj _ _ h

/-- The `bundled_lib` dependencies-rule message determines the package name. -/
theorem bundledDepMsg_inj {x y : String} (h : bundledDepMsg x = bundledDepMsg y) :
    x = y := by
  unfold bundledDepMsg at h
  exact sandwich_inj _ _ h

/-- The `bundled_lib` peerDependencies-rule message determines the package name. -/
theorem bundledPeerMsg_inj {x y : String} (h : bundledPeerMsg x = bundledPeerMsg y) :
    x = y := by
  unfold bundledPeerMsg at h
  exact sandwich_inj _ _ h

/-- The four rule-message templates are pairwise disjoint (1/6). -/
theorem internalDepMsg_ne_peerAsteriskMsg (x y : String) :
    internalDepMsg x ≠ peerAsteriskMsg y := by
  unfold internalDepMsg peerAsteriskMsg
  exact sandwich_ne _ _ _ _ 1 's' 'n' (by decide) (by decide) (by decide) x y

/-- The four rule-message templates are pairwise disjoint (2/6). -/
theorem internalDepMsg_ne_bundledDepMsg (x y : String) :
    internalDepMsg x ≠ bundledDepMsg y := by
  unfold internalDepMsg bundledDepMsg
  exact sandwich_ne _ _ _ _ 12 'D' 'd' (by decide) (by decide) (by decide) x y

/-- The four rule-message templates are pairwise disjoint (3/6). -/
theorem internalDepMsg_ne_bundledPeerMsg (x y : String) :
    internalDepMsg x ≠ bundledPeerMsg y := by
  unfold internalDepMsg bundledPeerMsg
  exact sandwich_ne _ _ _ _ 12 'D' 'd' (by decide) (by decide) (by decide) x y

/-- The four rule-message templates are pairwise disjoint (4/6). -/
theorem peerAsteriskMsg_ne_bundledDepMsg (x y : String) :
    peerAsteriskMsg x ≠ bundledDepMsg y := by
  unfold peerAsteriskMsg bundledDepMsg
  exact sandwich_ne _ _ _ _ 1 'n' 's' (by decide) (by decide) (by decide) x y

/-- The four rule-message templates are pairwise disjoint (5/6). -/
theorem peerAsteriskMsg_ne_bundledPeerMsg (x y : String) :
    peerAsteriskMsg x ≠ bundledPeerMsg y := by
  unfold peerAsteriskMsg bundledPeerMsg
  exact sandwich_ne _ _ _ _ 1 'n' 's' (by decide) (by decide) (by decide) x y

/-- The four rule-message templates are pairwise disjoint (6/6). -/
theorem bundledDepMsg_ne_bundledPeerMsg (x y : String) :
    bundledDepMsg x ≠ bundledPeerMsg y := by
  unfold bundledDepMsg bundledPeerMsg
  exact sandwich_ne _ _ _ _ 14 'l' 'r' (by decide) (by decide) (by decide) x y

/-- Any name carrying the `@tscircuit/` prefix contains `circuit` after
lowercasing: classifier rule 2 is subsumed by rule 3. -/
theorem includes_circuit_of_tscircuit (n : String)
    (h : jsStartsWith n "@tscircuit/" = true) :
    jsIncludes (jsToLower n) "circuit" = true := by
  unfold jsStartsWith at h
  rw [ List.isPrefixOf_iff_prefix] at h
  obtain ⟨t, ht⟩ := h
  unfold jsIncludes jsToLower
  rw [decide_eq_true_iff]
  show "circuit".data <:+: n.data.map Char.toLower
  have hmap : n.data.map Char.toLower = "@tscircuit/".data ++ t.map Char.toLower := by
    rw [← ht, List.map_append]
    congr 1
  rw [hmap]
  have hcirc : "circuit".data <:+: "@tscircuit/".data := by decide
  obtain ⟨u, v, huv⟩ := hcirc
  exact ⟨u, v ++ t.map Char.toLower, by rw [← huv]; simp only [List.append_assoc]⟩

/-- Every violation in the spec's ordered list is one of the four rule
messages instantiated at some non-ignored package name. -/
theorem mem_specOrderedErrors {pj : Manifest} {options : CheckOptions} {e : String}
    (he : e ∈ specOrderedErrors pj options) :
    ∃ d, (e = internalDepMsg d ∨ e = peerAsteriskMsg d ∨ e = bundledDepMsg d
        ∨ e = bundledPeerMsg d)
      ∧ options.ignore_packages.contains d = false := by
  unfold specOrderedErrors at he
  by_cases h1 : (options.package_type == "internal_lib") = true
  · rw [if_pos h1] at he
    rcases List.mem_append.mp he with hA | hB
    · obtain ⟨dv, hdv, heq⟩ := List.mem_map.mp hA
      have hf := (List.mem_filter.mp hdv).2
      simp only [Bool.and_eq_true, Bool.not_eq_true'] at hf
      exact ⟨dv.1, Or.inl heq.symm, hf.2⟩
    · by_cases h2 : options.peer_deps_should_be_asterisk = true
      · rw [if_pos h2] at hB
        obtain ⟨dv, hdv, heq⟩ := List.mem_map.mp hB
        have hf := (List.mem_filter.mp hdv).2
        simp only [Bool.and_eq_true, Bool.not_eq_true'] at hf
        exact ⟨dv.1, Or.inr (Or.inl heq.symm), hf.2⟩
      · rw [if_neg h2] at hB
        cases hB
  · rw [if_neg h1] at he
    by_cases h3 : (options.package_type == "bundled_lib") = true
    · rw [if_pos h3] at he
      rcases List.mem_append.mp he with hA | hB
      · obtain ⟨dv, hdv, heq⟩ := List.mem_map.mp hA
        have hf := (List.mem_filter.mp hdv).2
        simp only [Bool.and_eq_true, Bool.not_eq_true'] at hf
        exact ⟨dv.1, Or.inr (Or.inr (Or.inl heq.symm)), hf.2⟩
      · obtain ⟨dv, hdv, heq⟩ := List.mem_map.mp hB
        have hf := (List.mem_filter.mp hdv).2
        simp only [Bool.and_eq_true, Bool.not_eq_true'] at hf
        exact ⟨dv.1, Or.inr (Or.inr (Or.inr heq.symm)), hf.2⟩
    · rw [if_neg h3] at he
      cases he

/-- In an association list whose keys are pairwise distinct, a key determines
its value. -/
theorem nodup_keys_eq {l : List (String × String)} {d v v' : String}
    (hl : (l.map Prod.fst).Nodup) (h1 : (d, v) ∈ l) (h2 : (d, v') ∈ l) : v = v' := by
  induction l with
  | nil => cases h1
  | cons hd tl ih =>
    rw [List.map_cons, List.nodup_cons] at hl
    rcases List.mem_cons.mp h1 with e1 | m1 <;> rcases List.mem_cons.mp h2 with e2 | m2
    · have : (d, v) = (d, v') := e1.trans e2.symm
      exact congrArg Prod.snd this
    · exfalso
      apply hl.1
      have hhd : hd.1 = d := by rw [← e1]
      rw [hhd]
      exact List.mem_map.mpr ⟨(d, v'), m2, rfl⟩
    · exfalso
      apply hl.1
      have hhd : hd.1 = d := by rw [← e2]
      rw [hhd]
      exact List.mem_map.mpr ⟨(d, v), m1, rfl⟩
    · exact ih hl.2 m1 m2

/-- No error produced on a parsed manifest is a rule message instantiated at
an ignored package name. -/
theorem ignored_not_subject (pj : Manifest) (options : CheckOptions) (n : String)
    (hn : n ∈ options.ignore_packages) (e : String)
    (he : e ∈ (checkDependencies (.ok pj) options).errors) :
    e ≠ internalDepMsg n ∧ e ≠ peerAsteriskMsg n ∧ e ≠ bundledDepMsg n
      ∧ e ≠ bundledPeerMsg n := by
  rw [checkDependencies_ok_errors] at he
  obtain ⟨d, hcase, hig⟩ := mem_specOrderedErrors he
  have hdn : d ≠ n := by
    intro h
    rw [h] at hig
    rw [show options.ignore_packages.contains n = options.ignore_packages.elem n from rfl,
      List.elem_iff.mpr hn] at hig
    cases hig
  refine ⟨?_, ?_, ?_, ?_⟩ <;> intro heq <;>
    rcases hcase with h | h | h | h <;> rw [heq] at h
  · exact hdn (internalDepMsg_inj h).symm
  · exact internalDepMsg_ne_peerAsteriskMsg n d h
  · exact internalDepMsg_ne_bundledDepMsg n d h
  · exact internalDepMsg_ne_bundledPeerMsg n d h
  · exact internalDepMsg_ne_peerAsteriskMsg d n h.symm
  · exact hdn (peerAsteriskMsg_inj h).symm
  · exact peerAsteriskMsg_ne_bundledDepMsg n d h
  · exact peerAsteriskMsg_ne_bundledPeerMsg n d h
  · exact internalDepMsg_ne_bundledDepMsg d n h.symm
  · exact peerAsteriskMsg_ne_bundledDepMsg d n h.symm
  · exact hdn (bundledDepMsg_inj h).symm
  · exact bundledDepMsg_ne_bundledPeerMsg n d h
  · exact internalDepMsg_ne_bundledPeerMsg d n h.symm
  · exact peerAsteriskMsg_ne_bundledPeerMsg d n h.symm
  · exact bundledDepMsg_ne_bundledPeerMsg d n h.symm
  · exact hdn (bundledPeerMsg_inj h).symm

example : isInternalModule "MyCircuitLib" [] = true := by decide
example : isInternalModule "unrelated-pkg" [] = false := by decide
example : isInternalModule "schematic-symbols" [] = true := by decide
example : jsIncludes (jsToLower "schematic-symbols") "circuit" = false := by decide
example : isInternalModule "@tscircuit/core" [] = true := by decide
example :
    checkDependencies (.ok ⟨[("@tscircuit/core", "1.0.0")], [], []⟩) defaultOptions
      = { success := false, errors := [internalDepMsg "@tscircuit/core"] } := by decide
example :
    checkDependencies (.ok ⟨[], [("@tscircuit/core", "^1.0.0")], []⟩) defaultOptions
      = { success := false, errors := [peerAsteriskMsg "@tscircuit/core"] } := by decide
example :
    checkDependencies (.ok ⟨[], [("@tscircuit/core", "*")], []⟩) defaultOptions
      = { success := true, errors := [] } := by decide

/-! ## Claims -/

/-- C1: The claim says the effective `peer_deps_should_be_asterisk` flag is
true iff `INPUT_PEER_DEPS_SHOULD_BE_ASTERISK` is exactly the string `"true"`,
and false for every other value.  The code computes
`env === "true" || defaultOptions.peer_deps_should_be_asterisk` with a default
of `true`, so the flag is `true` for every environment value — `"false"` and
unset included — making the environment variable inert and contradicting the
parsing rule the spec states (the spec rule is `specPeerDepsFlag`). -/
theorem c1_peer_flag_env_inert :
    peerDepsAsterisk (some "false") = true
      ∧ specPeerDepsFlag (some "false") = false
      ∧ ∀ envValue : Option String, peerDepsAsterisk envValue = true := by
  refine ⟨rfl, rfl, fun envValue => ?_⟩
  unfold peerDepsAsterisk defaultOptions
  simp

/-- C2 counterexample: `"schematic-symbols"` is classified internal through
the built-in `INTERNAL_PACKAGE_LIST` although its lowercased form does not
contain `"circuit"`, refuting the claimed equivalence at that input. -/
theorem c2_counterexample :
    ¬ (isInternalModule "schematic-symbols" [] = true
        ↔ jsIncludes (jsToLower "schematic-symbols") "circuit" = true) := by
  decide

/-- C2 (amended): `isInternalModule n extra` is true iff the lowercased name
contains `"circuit"`, or the name is a member of the built-in internal package
list, or the name is a member of the caller-supplied extra list; the two
example evaluations of the claim hold. -/
theorem c2_classifier_characterization :
    (∀ (n : String) (extra : List String),
        isInternalModule n extra
          = (jsIncludes (jsToLower n) "circuit" || INTERNAL_PACKAGE_LIST.contains n
              || extra.contains n))
      ∧ isInternalModule "MyCircuitLib" [] = true
      ∧ isInternalModule "unrelated-pkg" [] = false := by
  refine ⟨fun n extra => ?_, by decide, by decide⟩
  unfold isInternalModule
  by_cases hA : n ∈ INTERNAL_PACKAGE_LIST
  · simp [hA]
  · by_cases hB : jsStartsWith n "@tscircuit/" = true
    · simp [hA, hB, includes_circuit_of_tscircuit n hB]
    · by_cases hC : jsIncludes (jsToLower n) "circuit" = true
      · simp [hA, hB, hC]
      · by_cases hD : n ∈ extra <;> simp [hA, hB, hC, hD]

/-- C3: For any configuration whose `package_type` is neither `"internal_lib"`
nor `"bundled_lib"`, the checker is a silent no-op on every parsed manifest:
success with an empty error list. -/
theorem c3_unknown_package_type_noop (pj : Manifest) (options : CheckOptions)
    (h1 : options.package_type ≠ "internal_lib")
    (h2 : options.package_type ≠ "bundled_lib") :
    checkDependencies (.ok pj) options = { success := true, errors := [] } := by
  unfold checkDependencies
  simp [beq_iff_eq, h1, h2]

/-- C3 witness at a concrete unrecognized package type and a manifest full of
internal dependencies. -/
theorem c3_witness :
    ({ package_type := "other", peer_deps_should_be_asterisk := true } :
          CheckOptions).package_type ≠ "internal_lib"
      ∧ ({ package_type := "other", peer_deps_should_be_asterisk := true } :
            CheckOptions).package_type ≠ "bundled_lib"
      ∧ checkDependencies (.ok ⟨[("@tscircuit/core", "1.0.0")], [], []⟩)
            { package_type := "other", peer_deps_should_be_asterisk := true }
          = { success := true, errors := [] } :=
  ⟨by decide, by decide, c3_unknown_package_type_noop _ _ (by decide) (by decide)⟩

/-- C4: When the manifest cannot be read or parsed, no rule runs: the result
is a failure carrying exactly one error, and that error embeds the underlying
failure description `e` (it is `parseErrorMsg e`, the fixed prefix followed by
`e`). -/
theorem c4_parse_failure (e : String) (options : CheckOptions) :
    checkDependencies (.error e) options
      = { success := false, errors := [parseErrorMsg e] }
      ∧ (checkDependencies (.error e) options).errors.length = 1 :=
  ⟨rfl, rfl⟩

/-- C5: For every read outcome and every configuration, the result's success
flag is true exactly when its error list is empty. -/
theorem c5_success_iff_no_errors (packageJson : Except String Manifest)
    (options : CheckOptions) :
    (checkDependencies packageJson options).success = true
      ↔ (checkDependencies packageJson options).errors = [] := by
  cases packageJson with
  | error e => simp [checkDependencies, pushError]
  | ok pj =>
    rw [checkDependencies_ok_success]
    constructor
    · intro h
      exact List.isEmpty_iff.mp h
    · intro h
      rw [h]
      rfl

/-- C6: A package name in `ignore_packages` is never the subject of an emitted
violation: none of the four rule messages instantiated at that name appears in
the checker's error list, under either package type. -/
theorem c6_ignored_never_reported (pj : Manifest) (options : CheckOptions)
    (n : String) (hn : n ∈ options.ignore_packages) :
    internalDepMsg n ∉ (checkDependencies (.ok pj) options).errors
      ∧ peerAsteriskMsg n ∉ (checkDependencies (.ok pj) options).errors
      ∧ bundledDepMsg n ∉ (checkDependencies (.ok pj) options).errors
      ∧ bundledPeerMsg n ∉ (checkDependencies (.ok pj) options).errors := by
  refine ⟨fun he => ?_, fun he => ?_, fun he => ?_, fun he => ?_⟩
  · exact (ignored_not_subject pj options n hn _ he).1 rfl
  · exact (ignored_not_subject pj options n hn _ he).2.1 rfl
  · exact (ignored_not_subject pj options n hn _ he).2.2.1 rfl
  · exact (ignored_not_subject pj options n hn _ he).2.2.2 rfl

/-- C6 witness: spec scenario F. -/
theorem c6_witness :
    "@tscircuit/core" ∈ scenarioFOptions.ignore_packages
      ∧ (internalDepMsg "@tscircuit/core"
            ∉ (checkDependencies (.ok scenarioFManifest) scenarioFOptions).errors
          ∧ peerAsteriskMsg "@tscircuit/core"
            ∉ (checkDependencies (.ok scenarioFManifest) scenarioFOptions).errors
          ∧ bundledDepMsg "@tscircuit/core"
            ∉ (checkDependencies (.ok scenarioFManifest) scenarioFOptions).errors
          ∧ bundledPeerMsg "@tscircuit/core"
            ∉ (checkDependencies (.ok scenarioFManifest) scenarioFOptions).errors) :=
  ⟨by decide, c6_ignored_never_reported scenarioFManifest scenarioFOptions
    "@tscircuit/core" (by decide)⟩

/-- C7: Under `internal_lib` with the asterisk rule on, an internal,
non-ignored entry of the (duplicate-key-free) peerDependencies map is
reported exactly when its version string differs from the literal `"*"` —
exact string equality, no semver-range evaluation. -/
theorem c7_peer_asterisk_exact_string (pj : Manifest) (options : CheckOptions)
    (d v : String)
    (hpt : options.package_type = "internal_lib")
    (hflag : options.peer_deps_should_be_asterisk = true)
    (hnodup : (pj.peerDependencies.map Prod.fst).Nodup)
    (hmem : (d, v) ∈ pj.peerDependencies)
    (hint : isInternalModule d options.additional_internal_modules = true)
    (hig : options.ignore_packages.contains d = false) :
    (peerAsteriskMsg d ∈ (checkDependencies (.ok pj) options).errors ↔ v ≠ "*") := by
  rw [checkDependencies_ok_errors]
  unfold specOrderedErrors
  rw [hpt, hflag]
  simp only [beq_self_eq_true, if_true]
  constructor
  · intro hin
    rcases List.mem_append.mp hin with hA | hB
    · obtain ⟨dv, _, heq⟩ := List.mem_map.mp hA
      exact absurd heq (internalDepMsg_ne_peerAsteriskMsg dv.1 d)
    · obtain ⟨dv, hdv, heq⟩ := List.mem_map.mp hB
      have hdd : dv.1 = d := peerAsteriskMsg_inj heq
      obtain ⟨hmem2, hcond⟩ := List.mem_filter.mp hdv
      simp only [Bool.and_eq_true, bne_iff_ne, ne_eq] at hcond
      have hmem3 : (d, dv.2) ∈ pj.peerDependencies := by
        rw [← hdd]
        exact hmem2
      have hv : v = dv.2 := nodup_keys_eq hnodup hmem hmem3
      rw [hv]
      exact hcond.1.2
  · intro hv
    apply List.mem_append.mpr
    right
    apply List.mem_map.mpr
    refine ⟨(d, v), List.mem_filter.mpr ⟨hmem, ?_⟩, rfl⟩
    have hig' : d ∉ options.ignore_packages := by
      intro hm
      rw [show options.ignore_packages.contains d = options.ignore_packages.elem d
          from rfl, List.elem_iff.mpr hm] at hig
      cases hig
    simp [hint, hig', bne_iff_ne, hv]

/-- C7 witness: spec scenario B, where version `"^1.0.0"` must be reported. -/
theorem c7_witness :
    defaultOptions.package_type = "internal_lib"
      ∧ defaultOptions.peer_deps_should_be_asterisk = true
      ∧ (scenarioBManifest.peerDependencies.map Prod.fst).Nodup
      ∧ ("@tscircuit/core", "^1.0.0") ∈ scenarioBManifest.peerDependencies
      ∧ isInternalModule "@tscircuit/core" defaultOptions.additional_internal_modules
          = true
      ∧ defaultOptions.ignore_packages.contains "@tscircuit/core" = false
      ∧ (peerAsteriskMsg "@tscircuit/core"
            ∈ (checkDependencies (.ok scenarioBManifest) defaultOptions).errors
          ↔ ("^1.0.0" : String) ≠ "*") :=
  ⟨rfl, rfl, by decide, by decide, by decide, by decide,
    c7_peer_asterisk_exact_string scenarioBManifest defaultOptions
      "@tscircuit/core" "^1.0.0" rfl rfl (by decide) (by decide) (by decide)
      (by decide)⟩

/-- C8: For every parsed manifest and configuration the error list is exactly
the spec's ordered violation list: dependencies-map violations in manifest
declaration order first, then peerDependencies-map violations in declaration
order. -/
theorem c8_error_order (pj : Manifest) (options : CheckOptions) :
    (checkDependencies (.ok pj) options).errors = specOrderedErrors pj options :=
  checkDependencies_ok_errors pj options

/-- C9: Results never depend on `devDependencies`: two manifests agreeing on
`dependencies` and `peerDependencies` yield identical results under every
configuration. -/
theorem c9_devDependencies_frame (options : CheckOptions) (m1 m2 : Manifest)
    (hdeps : m1.dependencies = m2.dependencies)
    (hpeer : m1.peerDependencies = m2.peerDependencies) :
    checkDependencies (.ok m1) options = checkDependencies (.ok m2) options := by
  cases m1 with
  | mk d1 p1 dev1 =>
    cases m2 with
    | mk d2 p2 dev2 =>
      have h1 : d1 = d2 := hdeps
      have h2 : p1 = p2 := hpeer
      subst h1
      subst h2
      rfl

/-- C9 witness: two manifests differing only in `devDependencies`. -/
theorem c9_witness :
    (⟨[("@tscircuit/core", "1.0.0")], [("left-pad", "*")], []⟩ : Manifest).dependencies
        = (⟨[("@tscircuit/core", "1.0.0")], [("left-pad", "*")],
            [("tscircuit", "2.0.0")]⟩ : Manifest).dependencies
      ∧ (⟨[("@tscircuit/core", "1.0.0")], [("left-pad", "*")], []⟩ :
            Manifest).peerDependencies
        = (⟨[("@tscircuit/core", "1.0.0")], [("left-pad", "*")],
            [("tscircuit", "2.0.0")]⟩ : Manifest).peerDependencies
      ∧ checkDependencies
            (.ok ⟨[("@tscircuit/core", "1.0.0")], [("left-pad", "*")], []⟩)
            defaultOptions
        = checkDependencies
            (.ok ⟨[("@tscircuit/core", "1.0.0")], [("left-pad", "*")],
              [("tscircuit", "2.0.0")]⟩)
            defaultOptions :=
  ⟨rfl, rfl, c9_devDependencies_frame _ _ _ rfl rfl⟩

/-- C10: Every name with the `@tscircuit/` prefix lowercases to a string
containing `"circuit"`, so classifier rule 2 (the prefix test) is subsumed by
rule 3 (the substring test): deleting rule 2 leaves the classifier unchanged
on every input. -/
theorem c10_prefix_rule_subsumed :
    ∀ (n : String) (extra : List String),
      (jsStartsWith n "@tscircuit/" = true → jsIncludes (jsToLower n) "circuit" = true)
        ∧ isInternalModuleNoPrefixRule n extra = isInternalModule n extra := by
  intro n extra
  refine ⟨includes_circuit_of_tscircuit n, ?_⟩
  unfold isInternalModule isInternalModuleNoPrefixRule
  by_cases hA : n ∈ INTERNAL_PACKAGE_LIST
  · simp [hA]
  · by_cases hB : jsStartsWith n "@tscircuit/" = true
    · simp [hA, hB, includes_circuit_of_tscircuit n hB]
    · simp [hA, hB]

/-- C10 witness at `"@tscircuit/core"`. -/
theorem c10_witness :
    jsStartsWith "@tscircuit/core" "@tscircuit/" = true
      ∧ jsIncludes (jsToLower "@tscircuit/core") "circuit" = true :=
  ⟨by decide, (c10_prefix_rule_subsumed "@tscircuit/core" []).1 (by decide)⟩

end DependencyCheck
